import Mathlib

set_option maxRecDepth 4000

/-!
Verification of the SMPP submission and concatenation service
(`vumi/transports/smpp/smpp_service.py`) against its specification.

The embedding translates the Python source into Lean:

* Python byte strings become `Bytes := List Nat` (each element is `ord`
  of one character of the `str`).
* The keyword-argument dictionary `pdu_params` becomes the structure
  `PduParams`, with one field per key that the service itself reads,
  pops or writes (`short_message`, `esm_class`, `sm_length`,
  `optional_parameters`) and an opaque association list for every other
  key, which the service only passes through.
* Python dictionaries of optional PDU parameters become association
  lists with unique keys; `dict.update` / `dict.pop` become
  `dictInsert` / field projections.
* The external collaborators are modelled by a `World`:
  `connected` is whether `get_protocol()` returns a protocol session,
  `refNums` is the supply of values returned by successive
  `sequence_generator.next()` calls, and `seqNos` is the supply of PDU
  sequence numbers assigned by successive protocol-level submits.
* Every externally visible effect (sequence-generator call, multipart
  stash write, protocol-level PDU submit) is recorded in a trace of
  events `Ev`, and each operation returns an `Outcome`: an
  `Except`-style result (the list of sequence numbers, or the raised
  `EsmeProtocolError`), the trace, and the final world.
-/

/-- A Python byte string: the list of `ord c` for its characters. -/
abbrev Bytes := List Nat

/-- A value stored in an optional-parameters dictionary: the service
stores integers (the SAR fields) and byte strings (the hex-encoded
`message_payload`). -/
inductive PValue
  | nat : Nat → PValue
  | bytes : Bytes → PValue
deriving DecidableEq, Repr

/-- A Python dict with string keys, as an association list with unique
keys (first occurrence wins, and `dictInsert` keeps keys unique). -/
abbrev Dict := List (String × PValue)

/-- `d[k] = v` on a Python dict: replace the value at an existing key in
place, append a fresh key at the end. -/
def dictInsert : Dict → String → PValue → Dict
  | [], k, v => [(k, v)]
  | (k0, v0) :: rest, k, v =>
    if k0 = k then (k0, v) :: rest else (k0, v0) :: dictInsert rest k v

/-- `d.get(k)` on a Python dict. -/
def dictLookup : Dict → String → Option PValue
  | [], _ => none
  | (k0, v0) :: rest, k => if k0 = k then some v0 else dictLookup rest k

/-- `d.update(kvs)` on a Python dict. -/
def dictUpdate (d : Dict) (kvs : List (String × PValue)) : Dict :=
  kvs.foldl (fun acc kv => dictInsert acc kv.1 kv.2) d

/-- The `**pdu_params` keyword dictionary handed to the submission
operations, split into the keys the service manipulates plus the opaque
remainder it passes through untouched. -/
structure PduParams where
  short_message : Option Bytes := none
  esm_class : Option Nat := none
  sm_length : Option Nat := none
  optional_parameters : Option Dict := none
  other : Dict := []
deriving DecidableEq, Repr

/-- The external collaborators, per §5/§6 of the spec: whether
`get_protocol()` currently returns a protocol session, the supply of
values the sequence generator will return, and the supply of PDU
sequence numbers the protocol session will assign. -/
structure World where
  connected : Bool
  refNums : List Nat
  seqNos : List Nat
deriving DecidableEq, Repr

/-- One `sequence_generator.next()` call: consume the head of the
reference-number supply (0 once the modelled supply is exhausted). -/
def drawRef : World → Nat × World
  | ⟨c, [], s⟩ => (0, ⟨c, [], s⟩)
  | ⟨c, r :: rs, s⟩ => (r, ⟨c, rs, s⟩)

/-- One protocol-assigned sequence number: consume the head of the
sequence-number supply. -/
def drawSeq : World → Nat × World
  | ⟨c, r, []⟩ => (0, ⟨c, r, []⟩)
  | ⟨c, r, s :: ss⟩ => (s, ⟨c, r, ss⟩)

/-- Externally visible effects of one submission call, in order. -/
inductive Ev
  | seqGenNext : Ev
  | stashInit : String → Nat → Ev
  | submitPdu : String → String → PduParams → Ev
deriving DecidableEq, Repr

/-- The exceptions this module can raise. The first three are the
`EsmeProtocolError`s raised explicitly by the source (one exception
class with distinct messages, distinguished here by raise site);
`valueError` is Python's builtin `ValueError`, raised by `chr(n)` for
`n ≥ 256` (this is Python 2 code, so `chr` is the byte-valued
builtin). -/
inductive PyError
  | notConnected
  | shortMessageWithPayload
  | esmClassWithUdh
  | valueError
deriving DecidableEq, Repr

instance : DecidableEq (Except PyError (List Nat)) := fun a b =>
  match a, b with
  | .ok x, .ok y =>
    if h : x = y then .isTrue (by rw [h]) else .isFalse (by simp [h])
  | .ok _, .error _ => .isFalse (by simp)
  | .error _, .ok _ => .isFalse (by simp)
  | .error x, .error y =>
    if h : x = y then .isTrue (by rw [h]) else .isFalse (by simp [h])

/-- Result of one submission operation: the returned sequence numbers or
the raised error, the trace of external effects, and the final world. -/
structure Outcome where
  result : Except PyError (List Nat)
  trace : List Ev
  world : World
deriving DecidableEq, Repr

def GSM_MAX_SMS_BYTES : Nat := 140

def GSM_MAX_SMS_7BIT_CHARS : Nat := 160

/-- Embedding of `SmppService.submit_sm`: the `proxy_protocol` guard
raises `EsmeProtocolError(... called while not connected.)` when
`get_protocol()` returns `None`; otherwise the call is delegated to the
protocol session.

Modelled from the spec: `EsmeProtocol.submit_sm` itself lives in
`vumi/transports/smpp/protocol.py`, which is not part of this snapshot;
§6 specifies the Protocol Session capability as
`submit(...) → sequence number`, so a connected protocol-level submit
records the PDU and returns the one sequence number it was assigned. -/
def submit_sm (w : World) (vumi_message_id destination_addr : String)
    (params : PduParams) : Outcome :=
  if w.connected then
    let rs := drawSeq w
    { result := .ok [rs.1],
      trace := [.submitPdu vumi_message_id destination_addr params],
      world := rs.2 }
  else
    { result := .error .notConnected, trace := [], world := w }

/-- Python's `'%02x' % b` for a byte `b`: a low hex digit as its ASCII
code (`0`–`9` are 48–57, `a`–`f` are 97–102). -/
def hexDigitCode (n : Nat) : Nat := if n < 10 then 48 + n else 87 + n

/-- The two-digit lowercase hex rendering of one byte. -/
def hexByte (c : Nat) : Bytes := [hexDigitCode (c / 16), hexDigitCode (c % 16)]

/-- `''.join('%02x' % ord(c) for c in long_message)`. -/
def hexEncode (m : Bytes) : Bytes := m.flatMap hexByte

/-- Embedding of `SmppService.submit_sm_long`: reject a caller-supplied
`short_message`, otherwise pop the caller's `optional_parameters`, add
the hex-encoded body under `message_payload`, and submit one PDU with an
empty short message and `sm_length=0`. -/
def submit_sm_long (w : World) (vumi_message_id destination_addr : String)
    (long_message : Bytes) (pdu_params : PduParams) : Outcome :=
  if pdu_params.short_message.isSome then
    { result := .error .shortMessageWithPayload, trace := [], world := w }
  else
    let optional_parameters :=
      dictInsert (pdu_params.optional_parameters.getD [])
        "message_payload" (.bytes (hexEncode long_message))
    submit_sm w vumi_message_id destination_addr
      { pdu_params with
          short_message := some [], sm_length := some 0,
          optional_parameters := some optional_parameters }

/-- Embedding of `SmppService._fits_in_one_message`. -/
def fits_in_one_message (message : Bytes) : Bool :=
  if message.length ≤ GSM_MAX_SMS_BYTES then true
  else if message.length ≤ GSM_MAX_SMS_7BIT_CHARS then
    message.all (fun ch => 0x20 ≤ ch && ch ≤ 0x7f)
  else false

/-- The body of the `while message:` loop of `csm_split_message`, with
`payload_length = GSM_MAX_SMS_BYTES - 10 = 130`; `fuel` bounds the
number of iterations and is immaterial whenever it is at least
`message.length` (each iteration drops at least one byte), see
`splitChunksGo_fuel`. -/
def splitChunksGo : Nat → Bytes → List Bytes
  | _, [] => []
  | 0, _ => []
  | fuel + 1, message =>
      message.take (GSM_MAX_SMS_BYTES - 10) ::
        splitChunksGo fuel (message.drop (GSM_MAX_SMS_BYTES - 10))

/-- The `while message:` loop of `csm_split_message`. -/
def splitChunksLoop (message : Bytes) : List Bytes :=
  splitChunksGo message.length message

/-- Embedding of `SmppService.csm_split_message`. -/
def csm_split_message (message : Bytes) : List Bytes :=
  if fits_in_one_message message then [message]
  else splitChunksLoop message

/-- The routing targets of `handle_submit_sm_resp`, with the arguments
each transport handler receives. -/
inductive Dispatch
  | throttled : String → Dispatch
  | success : String → String → String → Dispatch
  | failure : String → String → String → Dispatch
deriving DecidableEq, Repr

def throttle_statuses : List String := ["ESME_RTHROTTLED", "ESME_RMSGQFUL"]

/-- Embedding of `SmppService.handle_submit_sm_resp` (with
`handle_submit_sm_throttled` inlined: it forwards `message_id` to the
transport's throttle handler). -/
def handle_submit_sm_resp (message_id smpp_message_id pdu_status : String) :
    Dispatch :=
  if pdu_status ∈ throttle_statuses then .throttled message_id
  else if pdu_status = "ESME_ROK" then
    .success message_id smpp_message_id pdu_status
  else .failure message_id smpp_message_id pdu_status

/-- The `optional_parameters.update({...})` step of `submit_csm_sar`
for one segment: `sar_msg_ref_num` is the drawn reference number modulo
`0xFFFF`, `sar_total_segments` the chunk count, `sar_segment_seqnum`
the 1-based segment index. -/
def sarOptionalParameters (d : Dict) (ref_num total seqnum : Nat) : Dict :=
  dictUpdate d
    [("sar_msg_ref_num", .nat (ref_num % 0xFFFF)),
     ("sar_total_segments", .nat total),
     ("sar_segment_seqnum", .nat seqnum)]

/-- The `for i, msg in enumerate(split_msg):` loop of `submit_csm_sar`:
pairs are `(i, msg)` with `i` 0-based; the mutated
`optional_parameters` dict is threaded through the iterations, each
sequence-number list is appended (`sequence_numbers.extend`), and a
raised error from `submit_sm` aborts the remaining iterations. -/
def sarLoop (vumi_message_id destination_addr : String)
    (pdu_params : PduParams) (ref_num total : Nat) :
    World → Dict → List (Nat × Bytes) → Outcome
  | w, _, [] => { result := .ok [], trace := [], world := w }
  | w, optional_parameters, (i, msg) :: rest =>
    let optional_parameters :=
      sarOptionalParameters optional_parameters ref_num total (i + 1)
    let o := submit_sm w vumi_message_id destination_addr
      { pdu_params with
          short_message := some msg,
          optional_parameters := some optional_parameters }
    match o.result with
    | .error e => { result := .error e, trace := o.trace, world := o.world }
    | .ok seqs =>
      let o2 := sarLoop vumi_message_id destination_addr pdu_params ref_num
        total o.world optional_parameters rest
      { result := o2.result.map (fun t => seqs ++ t),
        trace := o.trace ++ o2.trace, world := o2.world }

/-- Embedding of `SmppService.submit_csm_sar`: pop `short_message`,
split it; a single chunk is submitted directly; otherwise pop the
caller's `optional_parameters`, draw one reference number, record the
multipart stash entry, then submit each segment. -/
def submit_csm_sar (w : World) (vumi_message_id destination_addr : String)
    (pdu_params : PduParams) : Outcome :=
  let split_msg := csm_split_message (pdu_params.short_message.getD [])
  let pdu_params := { pdu_params with short_message := none }
  if split_msg.length = 1 then
    submit_sm w vumi_message_id destination_addr
      { pdu_params with short_message := some (split_msg.headD []) }
  else
    let optional_parameters := pdu_params.optional_parameters.getD []
    let pdu_params := { pdu_params with optional_parameters := none }
    let rw := drawRef w
    let o := sarLoop vumi_message_id destination_addr pdu_params rw.1
      split_msg.length rw.2 optional_parameters split_msg.enum
    { result := o.result,
      trace := .seqGenNext ::
        .stashInit vumi_message_id split_msg.length :: o.trace,
      world := o.world }

/-- Python 2's builtin `chr(n)`: the one-character byte string for
`0 ≤ n ≤ 255`, a raised `ValueError` (`none`) for `n ≥ 256`. -/
def chr (n : Nat) : Option Nat :=
  if n < 256 then some n else none

/-- The six-byte user data header prepended to each UDH segment:
`'\x05\x00\x03'`, then `chr(ref_num % 0xFF)`, `chr(total)`,
`chr(seqnum)`, evaluated in that order. `ref_num % 0xFF` is always
below 255, but `chr(total)` raises `ValueError` (`none`) once a
message splits into 256 or more chunks, before any segment of it is
submitted. -/
def udhHeader (ref_num total seqnum : Nat) : Option Bytes := do
  let r ← chr (ref_num % 0xFF)
  let t ← chr total
  let s ← chr seqnum
  pure [0x05, 0x00, 0x03, r, t, s]

/-- The `for i, msg in enumerate(split_msg):` loop of `submit_csm_udh`:
`pdu_params['esm_class'] = 0x40` mutates the dict that persists across
iterations, the header plus chunk becomes the submitted short message,
and a raised error — the `ValueError` from `chr` while building the
header, or the `EsmeProtocolError` from the guarded `submit_sm` —
aborts the remaining iterations. -/
def udhLoop (vumi_message_id destination_addr : String)
    (ref_num total : Nat) :
    World → PduParams → List (Nat × Bytes) → Outcome
  | w, _, [] => { result := .ok [], trace := [], world := w }
  | w, pdu_params, (i, msg) :: rest =>
    let pdu_params := { pdu_params with esm_class := some 0x40 }
    match udhHeader ref_num total (i + 1) with
    | none => { result := .error .valueError, trace := [], world := w }
    | some udh =>
      let short_message := udh ++ msg
      let o := submit_sm w vumi_message_id destination_addr
        { pdu_params with short_message := some short_message }
      match o.result with
      | .error e =>
        { result := .error e, trace := o.trace, world := o.world }
      | .ok seqs =>
        let o2 := udhLoop vumi_message_id destination_addr ref_num total
          o.world pdu_params rest
        { result := o2.result.map (fun t => seqs ++ t),
          trace := o.trace ++ o2.trace, world := o2.world }

/-- Embedding of `SmppService.submit_csm_udh`: reject a caller-supplied
`esm_class`, pop `short_message`, split it; a single chunk is submitted
directly; otherwise draw one reference number, record the multipart
stash entry, then submit each segment with its user data header. -/
def submit_csm_udh (w : World) (vumi_message_id destination_addr : String)
    (pdu_params : PduParams) : Outcome :=
  if pdu_params.esm_class.isSome then
    { result := .error .esmClassWithUdh, trace := [], world := w }
  else
    let split_msg := csm_split_message (pdu_params.short_message.getD [])
    let pdu_params := { pdu_params with short_message := none }
    if split_msg.length = 1 then
      submit_sm w vumi_message_id destination_addr
        { pdu_params with short_message := some (split_msg.headD []) }
    else
      let rw := drawRef w
      let o := udhLoop vumi_message_id destination_addr rw.1
        split_msg.length rw.2 pdu_params split_msg.enum
      { result := o.result,
        trace := .seqGenNext ::
          .stashInit vumi_message_id split_msg.length :: o.trace,
        world := o.world }

/-- Whether an event is a protocol-level PDU submission. -/
def isSubmitEv : Ev → Bool
  | .submitPdu _ _ _ => true
  | _ => false

/-- Whether an event is a multipart-stash write. -/
def isStashEv : Ev → Bool
  | .stashInit _ _ => true
  | _ => false

/-- The PDU parameter sets submitted to the protocol session, in
submission order. -/
def submittedParams (o : Outcome) : List PduParams :=
  o.trace.filterMap (fun e =>
    match e with
    | .submitPdu _ _ p => some p
    | _ => none)

/-! ## Basic lemmas about the embedding -/

theorem splitChunksGo_fuel :
    ∀ (fuel fuel2 : Nat) (message : Bytes),
      message.length ≤ fuel → message.length ≤ fuel2 →
      splitChunksGo fuel message = splitChunksGo fuel2 message := by
  intro fuel
  induction fuel with
  | zero =>
    intro fuel2 message h1 _
    have hm : message = [] := List.eq_nil_of_length_eq_zero (Nat.le_zero.mp h1)
    subst hm
    cases fuel2 <;> rfl
  | succ f ih =>
    intro fuel2 message h1 h2
    cases message with
    | nil => cases fuel2 <;> rfl
    | cons c rest =>
      cases fuel2 with
      | zero => simp at h2
      | succ f2 =>
        show List.take _ (c :: rest) :: splitChunksGo f _ =
          List.take _ (c :: rest) :: splitChunksGo f2 _
        have hlen : (List.drop (GSM_MAX_SMS_BYTES - 10) (c :: rest)).length =
            (c :: rest).length - (GSM_MAX_SMS_BYTES - 10) := List.length_drop ..
        have h1' : (List.drop (GSM_MAX_SMS_BYTES - 10) (c :: rest)).length ≤ f := by
          simp [GSM_MAX_SMS_BYTES] at hlen ⊢
          simp at h1
          omega
        have h2' : (List.drop (GSM_MAX_SMS_BYTES - 10) (c :: rest)).length ≤ f2 := by
          simp [GSM_MAX_SMS_BYTES] at hlen ⊢
          simp at h2
          omega
        rw [ih _ _ h1' h2']

/-- The defining equation of the chunking loop. -/
theorem splitChunksLoop_eq (message : Bytes) :
    splitChunksLoop message =
      if message = [] then []
      else
        message.take (GSM_MAX_SMS_BYTES - 10) ::
          splitChunksLoop (message.drop (GSM_MAX_SMS_BYTES - 10)) := by
  cases message with
  | nil => rfl
  | cons c rest =>
    simp only [splitChunksLoop, List.length_cons]
    show List.take _ (c :: rest) :: splitChunksGo rest.length _ = _
    simp only [if_neg (List.cons_ne_nil c rest)]
    have h1 : (List.drop (GSM_MAX_SMS_BYTES - 10) (c :: rest)).length ≤ rest.length := by
      simp only [List.length_drop, List.length_cons, GSM_MAX_SMS_BYTES]
      omega
    rw [splitChunksGo_fuel _ _ _ h1 (Nat.le_refl _)]


theorem dictLookup_insert_self (d : Dict) (k : String) (v : PValue) :
    dictLookup (dictInsert d k v) k = some v := by
  induction d with
  | nil => simp [dictInsert, dictLookup]
  | cons kv rest ih =>
    obtain ⟨k0, v0⟩ := kv
    by_cases h : k0 = k
    · subst h
      simp [dictInsert, dictLookup]
    · simp [dictInsert, dictLookup, h, ih]

theorem dictLookup_insert_other (d : Dict) (k k2 : String) (v : PValue)
    (h : k2 ≠ k) :
    dictLookup (dictInsert d k v) k2 = dictLookup d k2 := by
  induction d with
  | nil =>
    simp [dictInsert, dictLookup]
    intro he
    exact absurd he.symm h
  | cons kv rest ih =>
    obtain ⟨k0, v0⟩ := kv
    by_cases h0 : k0 = k
    · subst h0
      have hk2 : ¬ k0 = k2 := fun he => h he.symm
      simp [dictInsert, dictLookup, hk2]
    · by_cases h2 : k0 = k2
      · subst h2
        simp [dictInsert, dictLookup, h0]
      · simp [dictInsert, dictLookup, h0, h2, ih]

theorem sarOpt_ref (d : Dict) (r t s : Nat) :
    dictLookup (sarOptionalParameters d r t s) "sar_msg_ref_num" =
      some (.nat (r % 0xFFFF)) := by
  show dictLookup
    (dictInsert (dictInsert (dictInsert d "sar_msg_ref_num" _)
      "sar_total_segments" _) "sar_segment_seqnum" _) _ = _
  rw [dictLookup_insert_other _ _ _ _ (by decide),
    dictLookup_insert_other _ _ _ _ (by decide),
    dictLookup_insert_self]

theorem sarOpt_total (d : Dict) (r t s : Nat) :
    dictLookup (sarOptionalParameters d r t s) "sar_total_segments" =
      some (.nat t) := by
  show dictLookup
    (dictInsert (dictInsert (dictInsert d "sar_msg_ref_num" _)
      "sar_total_segments" _) "sar_segment_seqnum" _) _ = _
  rw [dictLookup_insert_other _ _ _ _ (by decide), dictLookup_insert_self]

theorem sarOpt_seqnum (d : Dict) (r t s : Nat) :
    dictLookup (sarOptionalParameters d r t s) "sar_segment_seqnum" =
      some (.nat s) := by
  show dictLookup
    (dictInsert (dictInsert (dictInsert d "sar_msg_ref_num" _)
      "sar_total_segments" _) "sar_segment_seqnum" _) _ = _
  rw [dictLookup_insert_self]

theorem sarOpt_other (d : Dict) (r t s : Nat) (k : String)
    (h1 : k ≠ "sar_msg_ref_num") (h2 : k ≠ "sar_total_segments")
    (h3 : k ≠ "sar_segment_seqnum") :
    dictLookup (sarOptionalParameters d r t s) k = dictLookup d k := by
  show dictLookup
    (dictInsert (dictInsert (dictInsert d "sar_msg_ref_num" _)
      "sar_total_segments" _) "sar_segment_seqnum" _) _ = _
  rw [dictLookup_insert_other _ _ _ _ h3, dictLookup_insert_other _ _ _ _ h2,
    dictLookup_insert_other _ _ _ _ h1]

theorem drawSeq_connected (w : World) :
    (drawSeq w).2.connected = w.connected := by
  obtain ⟨c, r, s⟩ := w
  cases s <;> rfl

theorem drawSeq_refNums (w : World) :
    (drawSeq w).2.refNums = w.refNums := by
  obtain ⟨c, r, s⟩ := w
  cases s <;> rfl

theorem submit_sm_of_connected (w : World) (a b : String) (p : PduParams)
    (hw : w.connected = true) :
    submit_sm w a b p =
      { result := .ok [(drawSeq w).1],
        trace := [.submitPdu a b p], world := (drawSeq w).2 } := by
  simp [submit_sm, hw]

theorem submit_sm_of_disconnected (w : World) (a b : String) (p : PduParams)
    (hw : w.connected = false) :
    submit_sm w a b p =
      { result := .error .notConnected, trace := [], world := w } := by
  simp [submit_sm, hw]

theorem splitChunksGo_flatten (fuel : Nat) :
    ∀ message : Bytes, message.length ≤ fuel →
      (splitChunksGo fuel message).flatten = message := by
  induction fuel with
  | zero =>
    intro m h
    have hm : m = [] := List.eq_nil_of_length_eq_zero (Nat.le_zero.mp h)
    subst hm
    rfl
  | succ f ih =>
    intro m h
    cases m with
    | nil => rfl
    | cons c rest =>
      show (List.take (GSM_MAX_SMS_BYTES - 10) (c :: rest) ::
        splitChunksGo f (List.drop (GSM_MAX_SMS_BYTES - 10) (c :: rest))).flatten = _
      rw [List.flatten_cons,
        ih _ (by simp only [List.length_drop, List.length_cons,
          GSM_MAX_SMS_BYTES] at h ⊢; omega),
        List.take_append_drop]

theorem splitChunksGo_length (fuel : Nat) :
    ∀ message : Bytes, message.length ≤ fuel →
      (splitChunksGo fuel message).length = (message.length + 129) / 130 := by
  induction fuel with
  | zero =>
    intro m h
    have hm : m = [] := List.eq_nil_of_length_eq_zero (Nat.le_zero.mp h)
    subst hm
    rfl
  | succ f ih =>
    intro m h
    cases m with
    | nil => rfl
    | cons c rest =>
      show (List.take (GSM_MAX_SMS_BYTES - 10) (c :: rest) ::
        splitChunksGo f (List.drop (GSM_MAX_SMS_BYTES - 10) (c :: rest))).length = _
      rw [List.length_cons,
        ih _ (by simp only [List.length_drop, List.length_cons,
          GSM_MAX_SMS_BYTES] at h ⊢; omega)]
      simp only [List.length_drop, List.length_cons, GSM_MAX_SMS_BYTES]
      omega

theorem splitChunksGo_getElem? (fuel : Nat) :
    ∀ (message : Bytes) (j : Nat), message.length ≤ fuel →
      (splitChunksGo fuel message)[j]? =
        if message.drop (130 * j) = [] then none
        else some ((message.drop (130 * j)).take 130) := by
  induction fuel with
  | zero =>
    intro m j h
    have hm : m = [] := List.eq_nil_of_length_eq_zero (Nat.le_zero.mp h)
    subst hm
    simp [splitChunksGo]
  | succ f ih =>
    intro m j h
    cases m with
    | nil => simp [splitChunksGo]
    | cons c rest =>
      show (List.take (GSM_MAX_SMS_BYTES - 10) (c :: rest) ::
        splitChunksGo f (List.drop (GSM_MAX_SMS_BYTES - 10) (c :: rest)))[j]? = _
      cases j with
      | zero =>
        simp only [List.getElem?_cons_zero, Nat.mul_zero, List.drop_zero]
        rw [if_neg (List.cons_ne_nil c rest)]
        rfl
      | succ i =>
        rw [List.getElem?_cons_succ,
          ih _ i (by simp only [List.length_drop, List.length_cons,
            GSM_MAX_SMS_BYTES] at h ⊢; omega)]
        have hd : (List.drop (GSM_MAX_SMS_BYTES - 10) (c :: rest)).drop (130 * i) =
            (c :: rest).drop (130 * (i + 1)) := by
          rw [List.drop_drop]
          congr 1
          simp [GSM_MAX_SMS_BYTES]
          ring
        rw [hd]

theorem splitChunksGo_ne_nil (fuel : Nat) :
    ∀ (message : Bytes) (chunk : Bytes), message.length ≤ fuel →
      chunk ∈ splitChunksGo fuel message → chunk ≠ [] := by
  induction fuel with
  | zero =>
    intro m chunk h hmem
    have hm : m = [] := List.eq_nil_of_length_eq_zero (Nat.le_zero.mp h)
    subst hm
    simp [splitChunksGo] at hmem
  | succ f ih =>
    intro m chunk h hmem
    cases m with
    | nil => simp [splitChunksGo] at hmem
    | cons c rest =>
      have : chunk ∈ List.take (GSM_MAX_SMS_BYTES - 10) (c :: rest) ::
          splitChunksGo f (List.drop (GSM_MAX_SMS_BYTES - 10) (c :: rest)) := hmem
      rcases List.mem_cons.mp this with heq | hmem2
      · subst heq
        show List.take (GSM_MAX_SMS_BYTES - 10) (c :: rest) ≠ []
        simp [GSM_MAX_SMS_BYTES]
      · exact ih _ _ (by simp only [List.length_drop, List.length_cons,
          GSM_MAX_SMS_BYTES] at h ⊢; omega) hmem2

theorem fits_false_length (m : Bytes) (h : fits_in_one_message m = false) :
    140 < m.length := by
  by_contra hc
  simp only [fits_in_one_message, GSM_MAX_SMS_BYTES] at h
  rw [if_pos (by omega)] at h
  simp at h

theorem csm_of_fits (m : Bytes) (h : fits_in_one_message m = true) :
    csm_split_message m = [m] := by
  simp [csm_split_message, h]

theorem csm_of_not_fits (m : Bytes) (h : fits_in_one_message m = false) :
    csm_split_message m = splitChunksGo m.length m := by
  simp [csm_split_message, h, splitChunksLoop]

theorem csm_length_of_not_fits (m : Bytes) (h : fits_in_one_message m = false) :
    (csm_split_message m).length = (m.length + 129) / 130 := by
  rw [csm_of_not_fits m h]
  exact splitChunksGo_length _ _ (Nat.le_refl _)

theorem one_lt_csm_length (m : Bytes) (h : fits_in_one_message m = false) :
    1 < (csm_split_message m).length := by
  rw [csm_length_of_not_fits m h]
  have := fits_false_length m h
  omega

theorem csm_flatten (m : Bytes) : (csm_split_message m).flatten = m := by
  by_cases h : fits_in_one_message m = true
  · rw [csm_of_fits m h]
    simp
  · rw [csm_of_not_fits m (Bool.not_eq_true _ ▸ h)]
    exact splitChunksGo_flatten _ _ (Nat.le_refl _)

theorem csm_getElem?_of_not_fits (m : Bytes) (j : Nat)
    (h : fits_in_one_message m = false) :
    (csm_split_message m)[j]? =
      if m.drop (130 * j) = [] then none
      else some ((m.drop (130 * j)).take 130) := by
  rw [csm_of_not_fits m h]
  exact splitChunksGo_getElem? _ _ _ (Nat.le_refl _)

theorem csm_ne_nil (m : Bytes) : csm_split_message m ≠ [] := by
  by_cases h : fits_in_one_message m = true
  · rw [csm_of_fits m h]
    exact List.cons_ne_nil _ _
  · have := one_lt_csm_length m (Bool.not_eq_true _ ▸ h)
    intro hc
    rw [hc] at this
    simp at this

theorem csm_chunk_ne_nil (m : Bytes) (chunk : Bytes)
    (h : fits_in_one_message m = false)
    (hmem : chunk ∈ csm_split_message m) : chunk ≠ [] := by
  rw [csm_of_not_fits m h] at hmem
  exact splitChunksGo_ne_nil _ _ _ (Nat.le_refl _) hmem

theorem sarLoop_cons (a b : String) (pp : PduParams) (ref total i0 : Nat)
    (msg0 : Bytes) (rest : List (Nat × Bytes)) (w : World) (optP : Dict)
    (hw : w.connected = true) :
    sarLoop a b pp ref total w optP ((i0, msg0) :: rest) =
      { result := (sarLoop a b pp ref total (drawSeq w).2
            (sarOptionalParameters optP ref total (i0 + 1)) rest).result.map
          (fun t => [(drawSeq w).1] ++ t),
        trace := Ev.submitPdu a b
            { pp with
              short_message := some msg0,
              optional_parameters :=
                some (sarOptionalParameters optP ref total (i0 + 1)) } ::
          (sarLoop a b pp ref total (drawSeq w).2
            (sarOptionalParameters optP ref total (i0 + 1)) rest).trace,
        world := (sarLoop a b pp ref total (drawSeq w).2
          (sarOptionalParameters optP ref total (i0 + 1)) rest).world } := by
  simp only [sarLoop]
  rw [submit_sm_of_connected _ _ _ _ hw]
  rfl

theorem sarLoop_cons_disconnected (a b : String) (pp : PduParams)
    (ref total i0 : Nat) (msg0 : Bytes) (rest : List (Nat × Bytes))
    (w : World) (optP : Dict) (hw : w.connected = false) :
    sarLoop a b pp ref total w optP ((i0, msg0) :: rest) =
      { result := .error .notConnected, trace := [], world := w } := by
  simp only [sarLoop]
  rw [submit_sm_of_disconnected _ _ _ _ hw]

theorem sarLoop_spec (a b : String) (pp : PduParams) (ref total : Nat) :
    ∀ (pairs : List (Nat × Bytes)) (w : World) (optP : Dict),
      w.connected = true →
      (∃ seqs, (sarLoop a b pp ref total w optP pairs).result = .ok seqs ∧
        seqs.length = pairs.length) ∧
      (sarLoop a b pp ref total w optP pairs).world.connected = true ∧
      (sarLoop a b pp ref total w optP pairs).world.refNums = w.refNums ∧
      (sarLoop a b pp ref total w optP pairs).trace.length = pairs.length ∧
      (∀ e ∈ (sarLoop a b pp ref total w optP pairs).trace,
        isSubmitEv e = true) ∧
      (∀ (j i : Nat) (msg : Bytes), pairs[j]? = some (i, msg) →
        ∃ D, (sarLoop a b pp ref total w optP pairs).trace[j]? =
            some (Ev.submitPdu a b
              { pp with
                short_message := some msg,
                optional_parameters := some D }) ∧
          dictLookup D "sar_msg_ref_num" = some (.nat (ref % 0xFFFF)) ∧
          dictLookup D "sar_total_segments" = some (.nat total) ∧
          dictLookup D "sar_segment_seqnum" = some (.nat (i + 1)) ∧
          ∀ k, k ≠ "sar_msg_ref_num" → k ≠ "sar_total_segments" →
            k ≠ "sar_segment_seqnum" →
            dictLookup D k = dictLookup optP k) := by
  intro pairs
  induction pairs with
  | nil =>
    intro w optP hw
    refine ⟨⟨[], rfl, rfl⟩, hw, rfl, rfl, ?_, ?_⟩
    · intro e he
      exact absurd he (List.not_mem_nil e)
    · intro j i msg hp
      simp at hp
  | cons p rest ih =>
    obtain ⟨i0, msg0⟩ := p
    intro w optP hw
    rw [sarLoop_cons a b pp ref total i0 msg0 rest w optP hw]
    have hw1 : (drawSeq w).2.connected = true := by
      rw [drawSeq_connected]
      exact hw
    obtain ⟨⟨seqs2, hres2, hlen2⟩, hconn2, hrefs2, htlen2, hallsub2, hidx2⟩ :=
      ih (drawSeq w).2 (sarOptionalParameters optP ref total (i0 + 1))
        hw1
    refine ⟨⟨[(drawSeq w).1] ++ seqs2, ?_, ?_⟩, hconn2, ?_, ?_, ?_, ?_⟩
    · rw [hres2]
      rfl
    · simp [hlen2]
    · rw [hrefs2, drawSeq_refNums]
    · simp [htlen2]
    · intro e he
      rcases List.mem_cons.mp he with heq | hmem
    
      · subst heq
        rfl
      · exact hallsub2 e hmem
    · intro j i msg hp
      cases j with
      | zero =>
        simp only [List.getElem?_cons_zero, Option.some.injEq, Prod.mk.injEq] at hp
        obtain ⟨hi, hmsg⟩ := hp
        subst hi
        subst hmsg
        refine ⟨sarOptionalParameters optP ref total (i0 + 1), by simp,
          sarOpt_ref _ _ _ _, sarOpt_total _ _ _ _, sarOpt_seqnum _ _ _ _,
          ?_⟩
        intro k h1 h2 h3
        exact sarOpt_other _ _ _ _ _ h1 h2 h3
      | succ jj =>
        simp only [List.getElem?_cons_succ] at hp ⊢
        obtain ⟨D, htr, hr, ht, hs, hoth⟩ := hidx2 jj i msg hp
        refine ⟨D, htr, hr, ht, hs, ?_⟩
        intro k h1 h2 h3
        rw [hoth k h1 h2 h3]
        exact sarOpt_other _ _ _ _ _ h1 h2 h3

theorem udhHeader_some (ref total seqnum : Nat) (htot : total < 256)
    (hseq : seqnum < 256) :
    udhHeader ref total seqnum =
      some [0x05, 0x00, 0x03, ref % 0xFF, total, seqnum] := by
  have hr : ref % 0xFF < 256 := by
    have : ref % 255 < 255 := Nat.mod_lt _ (by omega)
    omega
  simp [udhHeader, chr, hr, htot, hseq]

theorem udhHeader_none_of_total (ref total seqnum : Nat)
    (htot : 256 ≤ total) :
    udhHeader ref total seqnum = none := by
  have hr : ref % 0xFF < 256 := by
    have : ref % 255 < 255 := Nat.mod_lt _ (by omega)
    omega
  have ht : ¬ total < 256 := by omega
  simp [udhHeader, chr, hr, ht]

theorem udhLoop_cons (a b : String) (ref total i0 : Nat) (msg0 hdr : Bytes)
    (rest : List (Nat × Bytes)) (w : World) (pp : PduParams)
    (hh : udhHeader ref total (i0 + 1) = some hdr)
    (hw : w.connected = true) :
    udhLoop a b ref total w pp ((i0, msg0) :: rest) =
      { result := (udhLoop a b ref total (drawSeq w).2
            { pp with esm_class := some 0x40 } rest).result.map
          (fun t => [(drawSeq w).1] ++ t),
        trace := Ev.submitPdu a b
            { pp with
              esm_class := some 0x40,
              short_message := some (hdr ++ msg0) } ::
          (udhLoop a b ref total (drawSeq w).2
            { pp with esm_class := some 0x40 } rest).trace,
        world := (udhLoop a b ref total (drawSeq w).2
          { pp with esm_class := some 0x40 } rest).world } := by
  simp only [udhLoop, hh]
  rw [submit_sm_of_connected _ _ _ _ hw]
  rfl

theorem udhLoop_cons_disconnected (a b : String) (ref total i0 : Nat)
    (msg0 hdr : Bytes) (rest : List (Nat × Bytes)) (w : World)
    (pp : PduParams) (hh : udhHeader ref total (i0 + 1) = some hdr)
    (hw : w.connected = false) :
    udhLoop a b ref total w pp ((i0, msg0) :: rest) =
      { result := .error .notConnected, trace := [], world := w } := by
  simp only [udhLoop, hh]
  rw [submit_sm_of_disconnected _ _ _ _ hw]

theorem udhLoop_cons_valueError (a b : String) (ref total i0 : Nat)
    (msg0 : Bytes) (rest : List (Nat × Bytes)) (w : World)
    (pp : PduParams) (hh : udhHeader ref total (i0 + 1) = none) :
    udhLoop a b ref total w pp ((i0, msg0) :: rest) =
      { result := .error .valueError, trace := [], world := w } := by
  simp only [udhLoop, hh]

theorem udhLoop_spec (a b : String) (ref total : Nat) :
    ∀ (pairs : List (Nat × Bytes)) (w : World) (pp : PduParams),
      w.connected = true → total < 256 →
      (∀ p ∈ pairs, p.1 + 1 < 256) →
      (∃ seqs, (udhLoop a b ref total w pp pairs).result = .ok seqs ∧
        seqs.length = pairs.length) ∧
      (udhLoop a b ref total w pp pairs).world.connected = true ∧
      (udhLoop a b ref total w pp pairs).world.refNums = w.refNums ∧
      (udhLoop a b ref total w pp pairs).trace =
        pairs.map (fun im => Ev.submitPdu a b
          { pp with
            esm_class := some 0x40,
            short_message :=
              some ([0x05, 0x00, 0x03, ref % 0xFF, total, im.1 + 1] ++
                im.2) }) := by
  intro pairs
  induction pairs with
  | nil =>
    intro w pp hw _ _
    exact ⟨⟨[], rfl, rfl⟩, hw, rfl, rfl⟩
  | cons p rest ih =>
    obtain ⟨i0, msg0⟩ := p
    intro w pp hw htot hbnd
    have hh := udhHeader_some ref total (i0 + 1) htot
      (hbnd (i0, msg0) (List.mem_cons_self _ _))
    rw [udhLoop_cons a b ref total i0 msg0 _ rest w pp hh hw]
    have hw1 : (drawSeq w).2.connected = true := by
      rw [drawSeq_connected]
      exact hw
    obtain ⟨⟨seqs2, hres2, hlen2⟩, hconn2, hrefs2, htr2⟩ :=
      ih (drawSeq w).2 { pp with esm_class := some 0x40 } hw1 htot
        (fun p hp => hbnd p (List.mem_cons_of_mem _ hp))
    refine ⟨⟨[(drawSeq w).1] ++ seqs2, ?_, ?_⟩, hconn2, ?_, ?_⟩
    · rw [hres2]
      rfl
    · simp [hlen2]
    · rw [hrefs2, drawSeq_refNums]
    · rw [htr2]
      simp only [List.map_cons]

theorem udhLoop_trace_submits (a b : String) (ref total : Nat) :
    ∀ (pairs : List (Nat × Bytes)) (w : World) (pp : PduParams),
      ∀ e ∈ (udhLoop a b ref total w pp pairs).trace,
        isSubmitEv e = true := by
  intro pairs
  induction pairs with
  | nil =>
    intro w pp e he
    exact absurd he (List.not_mem_nil e)
  | cons p rest ih =>
    obtain ⟨i0, msg0⟩ := p
    intro w pp e he
    rcases hh : udhHeader ref total (i0 + 1) with _ | hdr
    · rw [udhLoop_cons_valueError a b ref total i0 msg0 rest w pp hh] at he
      exact absurd he (List.not_mem_nil e)
    · by_cases hw : w.connected = true
      · rw [udhLoop_cons a b ref total i0 msg0 hdr rest w pp hh hw] at he
        rcases List.mem_cons.mp he with heq | hmem
        · subst heq
          rfl
        · exact ih (drawSeq w).2 { pp with esm_class := some 0x40 } e hmem
      · have hw2 : w.connected = false := Bool.not_eq_true _ ▸ hw
        rw [udhLoop_cons_disconnected a b ref total i0 msg0 hdr rest w pp
          hh hw2] at he
        exact absurd he (List.not_mem_nil e)

theorem drawRef_connected (w : World) :
    (drawRef w).2.connected = w.connected := by
  obtain ⟨c, r, s⟩ := w
  cases r <;> rfl

theorem pduParams_set_short_message (pp : PduParams) (m : Bytes)
    (hsm : pp.short_message = some m) :
    ({ pp with short_message := some m } : PduParams) = pp := by
  obtain ⟨sm, e, sl, op, ot⟩ := pp
  obtain rfl : sm = some m := hsm
  rfl

theorem submit_csm_sar_single (w : World) (a b : String) (pp : PduParams)
    (m : Bytes) (hsm : pp.short_message = some m)
    (hf : fits_in_one_message m = true) :
    submit_csm_sar w a b pp = submit_sm w a b pp := by
  simp only [submit_csm_sar, hsm, Option.getD_some, csm_of_fits m hf,
    List.length_singleton, if_pos, List.headD_cons]
  exact congrArg (submit_sm w a b) (pduParams_set_short_message pp m hsm)

theorem submit_csm_sar_multi (w : World) (a b : String) (pp : PduParams)
    (m : Bytes) (hsm : pp.short_message = some m)
    (hf : fits_in_one_message m = false) :
    submit_csm_sar w a b pp =
      { result := (sarLoop a b
            { pp with short_message := none, optional_parameters := none }
            (drawRef w).1 (csm_split_message m).length (drawRef w).2
            (pp.optional_parameters.getD [])
            (csm_split_message m).enum).result,
        trace := Ev.seqGenNext ::
          Ev.stashInit a (csm_split_message m).length ::
          (sarLoop a b
            { pp with short_message := none, optional_parameters := none }
            (drawRef w).1 (csm_split_message m).length (drawRef w).2
            (pp.optional_parameters.getD [])
            (csm_split_message m).enum).trace,
        world := (sarLoop a b
          { pp with short_message := none, optional_parameters := none }
          (drawRef w).1 (csm_split_message m).length (drawRef w).2
          (pp.optional_parameters.getD [])
          (csm_split_message m).enum).world } := by
  have hne : ¬ (csm_split_message m).length = 1 := by
    have := one_lt_csm_length m hf
    omega
  simp only [submit_csm_sar, hsm, Option.getD_some, if_neg hne]

theorem submit_csm_udh_esm_error (w : World) (a b : String) (pp : PduParams)
    (hesm : pp.esm_class.isSome = true) :
    submit_csm_udh w a b pp =
      { result := .error .esmClassWithUdh, trace := [], world := w } := by
  simp only [submit_csm_udh, hesm, if_pos]

theorem submit_csm_udh_single (w : World) (a b : String) (pp : PduParams)
    (m : Bytes) (hesm : pp.esm_class = none)
    (hsm : pp.short_message = some m)
    (hf : fits_in_one_message m = true) :
    submit_csm_udh w a b pp = submit_sm w a b pp := by
  have hesm2 : pp.esm_class.isSome = false := by
    rw [hesm]
    rfl
  simp only [submit_csm_udh, hesm2, Bool.false_eq_true, if_false, hsm,
    Option.getD_some, csm_of_fits m hf, List.length_singleton, if_pos,
    List.headD_cons]
  exact congrArg (submit_sm w a b) (pduParams_set_short_message pp m hsm)

theorem submit_csm_udh_multi (w : World) (a b : String) (pp : PduParams)
    (m : Bytes) (hesm : pp.esm_class = none)
    (hsm : pp.short_message = some m)
    (hf : fits_in_one_message m = false) :
    submit_csm_udh w a b pp =
      { result := (udhLoop a b (drawRef w).1 (csm_split_message m).length
            (drawRef w).2 { pp with short_message := none }
            (csm_split_message m).enum).result,
        trace := Ev.seqGenNext ::
          Ev.stashInit a (csm_split_message m).length ::
          (udhLoop a b (drawRef w).1 (csm_split_message m).length
            (drawRef w).2 { pp with short_message := none }
            (csm_split_message m).enum).trace,
        world := (udhLoop a b (drawRef w).1 (csm_split_message m).length
          (drawRef w).2 { pp with short_message := none }
          (csm_split_message m).enum).world } := by
  have hesm2 : pp.esm_class.isSome = false := by
    rw [hesm]
    rfl
  have hne : ¬ (csm_split_message m).length = 1 := by
    have := one_lt_csm_length m hf
    omega
  simp only [submit_csm_udh, hesm2, Bool.false_eq_true, if_false, hsm,
    Option.getD_some, if_neg hne]

theorem submit_sm_long_short_message_error (w : World) (a b : String)
    (lm : Bytes) (pp : PduParams) (hsm : pp.short_message.isSome = true) :
    submit_sm_long w a b lm pp =
      { result := .error .shortMessageWithPayload, trace := [],
        world := w } := by
  simp only [submit_sm_long, hsm, if_pos]

theorem hexEncode_length (m : Bytes) : (hexEncode m).length = 2 * m.length := by
  induction m with
  | nil => rfl
  | cons c rest ih =>
    simp only [hexEncode, List.flatMap_cons, hexByte] at ih ⊢
    simp only [List.length_append, List.length_cons, List.length_nil,
      List.length_cons, ih]
    omega

/-! ## The claims -/

/-- C4: `_fits_in_one_message` returns true for every message of byte
length at most 140; returns true for every message of byte length at
most 160 all of whose bytes lie in the inclusive range
`[0x20, 0x7F]`; and returns false for every other message. -/
theorem C4_fits_decision (m : Bytes) :
    fits_in_one_message m = true ↔
      (m.length ≤ 140 ∨
        (m.length ≤ 160 ∧ ∀ c ∈ m, 0x20 ≤ c ∧ c ≤ 0x7f)) := by
  simp only [fits_in_one_message, GSM_MAX_SMS_BYTES, GSM_MAX_SMS_7BIT_CHARS]
  by_cases h1 : m.length ≤ 140
  · simp [h1]
  · by_cases h2 : m.length ≤ 160
    · simp only [if_neg h1, if_pos h2, List.all_eq_true]
      constructor
      · intro hall
        refine Or.inr ⟨h2, ?_⟩
        intro c hc
        have := hall c hc
        simp at this
        exact this
      · intro hor
        rcases hor with hl | ⟨_, hall⟩
        · exact absurd hl h1
        · intro c hc
          simp
          exact hall c hc
    · simp [h1, h2]

/-- C5: a message that fits in one PDU splits into the single-element
list holding the whole message; a message that does not fit splits into
consecutive 130-byte chunks with the final chunk holding the remainder;
in particular a 161-byte all-printable-ASCII message yields exactly two
chunks of lengths 130 and 31. -/
theorem C5_csm_split (m : Bytes) :
    (fits_in_one_message m = true → csm_split_message m = [m]) ∧
    (fits_in_one_message m = false →
      ∀ j : Nat, (csm_split_message m)[j]? =
        if m.drop (130 * j) = [] then none
        else some ((m.drop (130 * j)).take 130)) ∧
    (csm_split_message (List.replicate 161 97)).map List.length =
      [130, 31] := by
  refine ⟨csm_of_fits m, ?_, by decide⟩
  intro hf j
  exact csm_getElem?_of_not_fits m j hf

/-- C5 witness at the 161-byte all-printable message. -/
theorem C5_csm_split_witness :
    (fits_in_one_message (List.replicate 161 97) = true →
      csm_split_message (List.replicate 161 97) =
        [List.replicate 161 97]) ∧
    (fits_in_one_message (List.replicate 161 97) = false →
      ∀ j : Nat, (csm_split_message (List.replicate 161 97))[j]? =
        if (List.replicate 161 97).drop (130 * j) = [] then none
        else some (((List.replicate 161 97).drop (130 * j)).take 130)) ∧
    (csm_split_message (List.replicate 161 97)).map List.length =
      [130, 31] :=
  C5_csm_split (List.replicate 161 97)

/-- C6: a submission-response status routes to exactly one handler:
`ESME_RTHROTTLED` or `ESME_RMSGQFUL` to the throttle handler,
`ESME_ROK` to the success handler, and every other status to the
failure handler. -/
theorem C6_resp_routing (mid smid status : String) :
    ((status = "ESME_RTHROTTLED" ∨ status = "ESME_RMSGQFUL") →
      handle_submit_sm_resp mid smid status = .throttled mid) ∧
    (status = "ESME_ROK" →
      handle_submit_sm_resp mid smid status = .success mid smid status) ∧
    (status ≠ "ESME_RTHROTTLED" → status ≠ "ESME_RMSGQFUL" →
      status ≠ "ESME_ROK" →
      handle_submit_sm_resp mid smid status =
        .failure mid smid status) := by
  refine ⟨?_, ?_, ?_⟩
  · intro h
    rcases h with h | h <;> subst h <;> rfl
  · intro h
    subst h
    rfl
  · intro h1 h2 h3
    have hmem : status ∉ throttle_statuses := by
      simp [throttle_statuses, h1, h2]
    simp [handle_submit_sm_resp, hmem, h3]

/-- C6 witness at the three routing classes. -/
theorem C6_resp_routing_witness :
    (("ESME_RTHROTTLED" = "ESME_RTHROTTLED" ∨
        "ESME_RTHROTTLED" = "ESME_RMSGQFUL") →
      handle_submit_sm_resp "m" "s" "ESME_RTHROTTLED" = .throttled "m") ∧
    ("ESME_RTHROTTLED" = "ESME_ROK" →
      handle_submit_sm_resp "m" "s" "ESME_RTHROTTLED" =
        .success "m" "s" "ESME_RTHROTTLED") ∧
    ("ESME_RTHROTTLED" ≠ "ESME_RTHROTTLED" →
      "ESME_RTHROTTLED" ≠ "ESME_RMSGQFUL" →
      "ESME_RTHROTTLED" ≠ "ESME_ROK" →
      handle_submit_sm_resp "m" "s" "ESME_RTHROTTLED" =
        .failure "m" "s" "ESME_RTHROTTLED") :=
  C6_resp_routing "m" "s" "ESME_RTHROTTLED"

/-- C10: the split is lossless — the returned list is non-empty and its
concatenation is the original message — and when the message does not
fit in one PDU every chunk except the last has length exactly 130 and
every chunk is non-empty. -/
theorem C10_split_lossless (m : Bytes) :
    csm_split_message m ≠ [] ∧
    (csm_split_message m).flatten = m ∧
    (fits_in_one_message m = false →
      (∀ j : Nat, j + 1 < (csm_split_message m).length →
        ∃ c, (csm_split_message m)[j]? = some c ∧ c.length = 130) ∧
      ∀ c ∈ csm_split_message m, c ≠ []) := by
  refine ⟨csm_ne_nil m, csm_flatten m, ?_⟩
  intro hf
  have hbig := fits_false_length m hf
  constructor
  · intro j hj
    rw [csm_length_of_not_fits m hf] at hj
    refine ⟨(m.drop (130 * j)).take 130, ?_, ?_⟩
    · rw [csm_getElem?_of_not_fits m j hf, if_neg]
      intro hd
      have hlen := congrArg List.length hd
      simp only [List.length_drop, List.length_nil] at hlen
      omega
    · rw [List.length_take, List.length_drop]
      omega
  · intro c hc
    exact csm_chunk_ne_nil m c hf hc

/-- C10 witness at a 141-byte message (two chunks of 130 and 11). -/
theorem C10_split_lossless_witness :
    csm_split_message (List.replicate 141 0) ≠ [] ∧
    (csm_split_message (List.replicate 141 0)).flatten =
      List.replicate 141 0 ∧
    (fits_in_one_message (List.replicate 141 0) = false →
      (∀ j : Nat, j + 1 < (csm_split_message (List.replicate 141 0)).length →
        ∃ c, (csm_split_message (List.replicate 141 0))[j]? = some c ∧
          c.length = 130) ∧
      ∀ c ∈ csm_split_message (List.replicate 141 0), c ≠ []) :=
  C10_split_lossless (List.replicate 141 0)

/-- C7: supplying `short_message` to the long-message payload path, or
`esm_class` to the UDH path, fails with the corresponding
`EsmeProtocolError` validation error before any network interaction,
stash write or sequence-generator call (empty trace, world
untouched). -/
theorem C7_validation_errors (w : World) (a b : String) (lm : Bytes)
    (pp qq : PduParams) (hsm : pp.short_message.isSome = true)
    (hesm : qq.esm_class.isSome = true) :
    submit_sm_long w a b lm pp =
      { result := .error .shortMessageWithPayload, trace := [],
        world := w } ∧
    submit_csm_udh w a b qq =
      { result := .error .esmClassWithUdh, trace := [], world := w } :=
  ⟨submit_sm_long_short_message_error w a b lm pp hsm,
    submit_csm_udh_esm_error w a b qq hesm⟩

/-- C7 witness at concrete inputs. -/
theorem C7_validation_errors_witness :
    submit_sm_long ⟨true, [4], [5]⟩ "m7" "d7" [97]
        { short_message := some [98] } =
      { result := .error .shortMessageWithPayload, trace := [],
        world := ⟨true, [4], [5]⟩ } ∧
    submit_csm_udh ⟨true, [4], [5]⟩ "m7" "d7"
        { short_message := some [98], esm_class := some 0 } =
      { result := .error .esmClassWithUdh, trace := [],
        world := ⟨true, [4], [5]⟩ } :=
  C7_validation_errors ⟨true, [4], [5]⟩ "m7" "d7" [97]
    { short_message := some [98] }
    { short_message := some [98], esm_class := some 0 }
    (by decide) (by decide)

/-- C9: the long-message payload path hex-encodes the whole body (two
hex digits per byte, in order) into the `message_payload` optional
parameter and submits exactly one PDU with an empty short message and
`sm_length = 0`, preserving caller-supplied optional parameters under
other keys. -/
theorem C9_long_payload (w : World) (a b : String) (lm : Bytes)
    (pp : PduParams) (hw : w.connected = true)
    (hsm : pp.short_message = none) :
    ∃ s D,
      (submit_sm_long w a b lm pp).result = .ok [s] ∧
      (submit_sm_long w a b lm pp).trace =
        [Ev.submitPdu a b
          { pp with
            short_message := some [], sm_length := some 0,
            optional_parameters := some D }] ∧
      dictLookup D "message_payload" = some (.bytes (hexEncode lm)) ∧
      (hexEncode lm).length = 2 * lm.length ∧
      ∀ k, k ≠ "message_payload" →
        dictLookup D k = dictLookup (pp.optional_parameters.getD []) k := by
  have hsm2 : pp.short_message.isSome = false := by
    rw [hsm]
    rfl
  refine ⟨(drawSeq w).1,
    dictInsert (pp.optional_parameters.getD []) "message_payload"
      (.bytes (hexEncode lm)), ?_, ?_, ?_, hexEncode_length lm, ?_⟩
  · simp only [submit_sm_long, hsm2, Bool.false_eq_true, if_false]
    rw [submit_sm_of_connected _ _ _ _ hw]
  · simp only [submit_sm_long, hsm2, Bool.false_eq_true, if_false]
    rw [submit_sm_of_connected _ _ _ _ hw]
  · exact dictLookup_insert_self _ _ _
  · intro k hk
    exact dictLookup_insert_other _ _ _ _ hk

/-- C9 witness at a concrete two-byte body. -/
theorem C9_long_payload_witness :
    ∃ s D,
      (submit_sm_long ⟨true, [4], [5]⟩ "m9" "d9" [255, 16]
          { optional_parameters := some [("dest_port", PValue.nat 2)] }).result =
        .ok [s] ∧
      (submit_sm_long ⟨true, [4], [5]⟩ "m9" "d9" [255, 16]
          { optional_parameters := some [("dest_port", PValue.nat 2)] }).trace =
        [Ev.submitPdu "m9" "d9"
          { ({ optional_parameters :=
                some [("dest_port", PValue.nat 2)] } : PduParams) with
            short_message := some [], sm_length := some 0,
            optional_parameters := some D }] ∧
      dictLookup D "message_payload" =
        some (.bytes (hexEncode [255, 16])) ∧
      (hexEncode [255, 16]).length = 2 * ([255, 16] : Bytes).length ∧
      ∀ k, k ≠ "message_payload" →
        dictLookup D k = dictLookup [("dest_port", PValue.nat 2)] k :=
  C9_long_payload ⟨true, [4], [5]⟩ "m9" "d9" [255, 16]
    { optional_parameters := some [("dest_port", PValue.nat 2)] }
    (by decide) (by decide)

/-- C1 counterexample: with drawn reference number `0xFFFF` and a
141-byte two-chunk message, the submitted `sar_msg_ref_num` is
`0xFFFF % 0xFFFF = 0`, not `0xFFFF % 0x10000 = 0xFFFF` as the claim
states (the source computes `ref_num % 0xFFFF`, not modulo
`0x10000`). -/
theorem C1_sar_ref_counterexample :
    1 < (csm_split_message (List.replicate 141 0)).length ∧
    dictLookup
      (((submittedParams (submit_csm_sar ⟨true, [0xFFFF], [1, 2]⟩ "m1" "d1"
          { short_message := some (List.replicate 141 0) })).headD
        {}).optional_parameters.getD [])
      "sar_msg_ref_num" = some (.nat 0) ∧
    (0xFFFF % 0x10000 : Nat) = 0xFFFF ∧
    some (PValue.nat 0) ≠ some (PValue.nat (0xFFFF % 0x10000)) := by
  decide

/-- C1 (amended: the reference number is reduced modulo `0xFFFF`, not
`0x10000`): for a message splitting into more than one chunk, SAR
submission submits one PDU per chunk, each carrying
`sar_msg_ref_num = referenceNumber % 0xFFFF`,
`sar_total_segments = N` and `sar_segment_seqnum` running exactly
through `1..N` in submission order, with caller-supplied optional
parameters under other keys preserved on every segment. -/
theorem C1_sar_segments (w : World) (a b : String) (m : Bytes)
    (pp : PduParams) (hw : w.connected = true)
    (hsm : pp.short_message = some m)
    (hf : fits_in_one_message m = false) :
    (submit_csm_sar w a b pp).trace.length =
      (csm_split_message m).length + 2 ∧
    ∀ (j : Nat) (c : Bytes), (csm_split_message m)[j]? = some c →
      ∃ D, ((submit_csm_sar w a b pp).trace.drop 2)[j]? =
          some (Ev.submitPdu a b
            { pp with
              short_message := some c,
              optional_parameters := some D }) ∧
        dictLookup D "sar_msg_ref_num" =
          some (.nat ((drawRef w).1 % 0xFFFF)) ∧
        dictLookup D "sar_total_segments" =
          some (.nat (csm_split_message m).length) ∧
        dictLookup D "sar_segment_seqnum" = some (.nat (j + 1)) ∧
        ∀ k, k ≠ "sar_msg_ref_num" → k ≠ "sar_total_segments" →
          k ≠ "sar_segment_seqnum" →
          dictLookup D k =
            dictLookup (pp.optional_parameters.getD []) k := by
  rw [submit_csm_sar_multi w a b pp m hsm hf]
  have hwr : (drawRef w).2.connected = true := by
    rw [drawRef_connected]
    exact hw
  obtain ⟨_, _, _, htlen, _, hidx⟩ := sarLoop_spec a b
    { pp with short_message := none, optional_parameters := none }
    (drawRef w).1 (csm_split_message m).length
    (csm_split_message m).enum (drawRef w).2
    (pp.optional_parameters.getD []) hwr
  constructor
  · simp only [List.length_cons, htlen, List.enum_length]
  · intro j c hc
    have hpair : (csm_split_message m).enum[j]? = some (j, c) := by
      rw [List.getElem?_enum, hc]
      rfl
    obtain ⟨D, htr, h1, h2, h3, h4⟩ := hidx j j c hpair
    refine ⟨D, ?_, h1, h2, h3, h4⟩
    simp only [List.drop_succ_cons, List.drop_zero]
    rw [htr]

/-- C1 amended witness: a 141-byte message with one caller key, at a
connected world. -/
theorem C1_sar_segments_witness :
    (fits_in_one_message (List.replicate 141 0) = false) ∧
    ((submit_csm_sar ⟨true, [5], [11, 12]⟩ "mw1" "dw1"
        { short_message := some (List.replicate 141 0),
          optional_parameters :=
            some [("dest_port", PValue.nat 2)] }).trace.length =
      (csm_split_message (List.replicate 141 0)).length + 2 ∧
    ∀ (j : Nat) (c : Bytes),
      (csm_split_message (List.replicate 141 0))[j]? = some c →
      ∃ D, ((submit_csm_sar ⟨true, [5], [11, 12]⟩ "mw1" "dw1"
            { short_message := some (List.replicate 141 0),
              optional_parameters :=
                some [("dest_port", PValue.nat 2)] }).trace.drop 2)[j]? =
          some (Ev.submitPdu "mw1" "dw1"
            { ({ short_message := some (List.replicate 141 0),
                 optional_parameters :=
                   some [("dest_port", PValue.nat 2)] } : PduParams) with
              short_message := some c,
              optional_parameters := some D }) ∧
        dictLookup D "sar_msg_ref_num" =
          some (.nat ((drawRef ⟨true, [5], [11, 12]⟩).1 % 0xFFFF)) ∧
        dictLookup D "sar_total_segments" =
          some (.nat (csm_split_message (List.replicate 141 0)).length) ∧
        dictLookup D "sar_segment_seqnum" = some (.nat (j + 1)) ∧
        ∀ k, k ≠ "sar_msg_ref_num" → k ≠ "sar_total_segments" →
          k ≠ "sar_segment_seqnum" →
          dictLookup D k =
            dictLookup [("dest_port", PValue.nat 2)] k) :=
  ⟨by decide,
    C1_sar_segments ⟨true, [5], [11, 12]⟩ "mw1" "dw1"
      (List.replicate 141 0)
      { short_message := some (List.replicate 141 0),
        optional_parameters := some [("dest_port", PValue.nat 2)] }
      (by decide) (by decide) (by decide)⟩

/-- C2 counterexample: with drawn reference number `0xFF` and a
141-byte two-chunk message, the fourth byte of the first submitted
short message is `0xFF % 0xFF = 0`, not `0xFF % 0x100 = 0xFF` as the
claim states (the source computes `chr(ref_num % 0xFF)`, not modulo
`0x100`). -/
theorem C2_udh_ref_counterexample :
    1 < (csm_split_message (List.replicate 141 0)).length ∧
    ((((submittedParams (submit_csm_udh ⟨true, [0xFF], [1, 2]⟩ "m2" "d2"
          { short_message := some (List.replicate 141 0) })).headD
        {}).short_message.getD [])[3]?) = some 0 ∧
    (0xFF % 0x100 : Nat) = 0xFF ∧
    (some 0 : Option Nat) ≠ some (0xFF % 0x100) := by
  decide

/-- C2 (amended twice: the reference number is reduced modulo `0xFF`,
not `0x100`, and segment submission happens only when the chunk count
fits in one byte): for a message splitting into N>1 chunks with
N ≤ 255, UDH submission submits one PDU per chunk whose short message
is the six-byte header `0x05, 0x00, 0x03, referenceNumber % 0xFF, N,
index` followed by the chunk bytes, with `esm_class = 0x40` on every
segment; for N ≥ 256 the source raises `ValueError` at
`chr(len(split_msg))` and no segment is submitted. -/
theorem C2_udh_segments (w : World) (a b : String) (m : Bytes)
    (pp : PduParams) (hw : w.connected = true)
    (hesm : pp.esm_class = none) (hsm : pp.short_message = some m)
    (hf : fits_in_one_message m = false) :
    ((csm_split_message m).length < 256 →
      (submit_csm_udh w a b pp).trace.length =
        (csm_split_message m).length + 2 ∧
      ∀ (j : Nat) (c : Bytes), (csm_split_message m)[j]? = some c →
        ((submit_csm_udh w a b pp).trace.drop 2)[j]? =
          some (Ev.submitPdu a b
            { pp with
              esm_class := some 0x40,
              short_message :=
                some ([0x05, 0x00, 0x03, (drawRef w).1 % 0xFF,
                    (csm_split_message m).length, j + 1] ++ c) })) ∧
    (256 ≤ (csm_split_message m).length →
      (submit_csm_udh w a b pp).result = .error .valueError ∧
      (submit_csm_udh w a b pp).trace =
        [Ev.seqGenNext,
          Ev.stashInit a (csm_split_message m).length]) := by
  rw [submit_csm_udh_multi w a b pp m hesm hsm hf]
  have hwr2 : (drawRef w).2.connected = true := by
    rw [drawRef_connected]
    exact hw
  constructor
  · intro hN
    have hbnd : ∀ p ∈ (csm_split_message m).enum, p.1 + 1 < 256 := by
      intro p hp
      rw [List.mem_enum_iff_getElem?] at hp
      have := (List.getElem?_eq_some.mp hp).1
      omega
    obtain ⟨_, _, _, htr⟩ := udhLoop_spec a b (drawRef w).1
      (csm_split_message m).length (csm_split_message m).enum
      (drawRef w).2 { pp with short_message := none } hwr2 hN hbnd
    constructor
    · simp only [List.length_cons, htr, List.length_map, List.enum_length]
    · intro j c hc
      simp only [List.drop_succ_cons, List.drop_zero]
      rw [htr, List.getElem?_map, List.getElem?_enum, hc]
      rfl
  · intro hN
    obtain ⟨c0, t, hcs⟩ := List.exists_cons_of_ne_nil (csm_ne_nil m)
    have henum : (csm_split_message m).enum = (0, c0) :: t.enumFrom 1 := by
      rw [hcs]
      simp [List.enum_cons]
    have hh := udhHeader_none_of_total (drawRef w).1
      (csm_split_message m).length 1 hN
    rw [henum, udhLoop_cons_valueError a b (drawRef w).1
      (csm_split_message m).length 0 c0 (t.enumFrom 1) (drawRef w).2
      { pp with short_message := none } hh]
    exact ⟨rfl, rfl⟩

/-- C2 amended witness: a 141-byte message (two chunks) at a connected
world with reference number 7. -/
theorem C2_udh_segments_witness :
    (fits_in_one_message (List.replicate 141 0) = false) ∧
    (((csm_split_message (List.replicate 141 0)).length < 256 →
      (submit_csm_udh ⟨true, [7], [11, 12]⟩ "mw2" "dw2"
          { short_message :=
              some (List.replicate 141 0) }).trace.length =
        (csm_split_message (List.replicate 141 0)).length + 2 ∧
      ∀ (j : Nat) (c : Bytes),
        (csm_split_message (List.replicate 141 0))[j]? = some c →
        ((submit_csm_udh ⟨true, [7], [11, 12]⟩ "mw2" "dw2"
            { short_message :=
                some (List.replicate 141 0) }).trace.drop 2)[j]? =
          some (Ev.submitPdu "mw2" "dw2"
            { ({ short_message :=
                  some (List.replicate 141 0) } : PduParams) with
              esm_class := some 0x40,
              short_message :=
                some ([0x05, 0x00, 0x03,
                    (drawRef ⟨true, [7], [11, 12]⟩).1 % 0xFF,
                    (csm_split_message (List.replicate 141 0)).length,
                    j + 1] ++ c) })) ∧
    (256 ≤ (csm_split_message (List.replicate 141 0)).length →
      (submit_csm_udh ⟨true, [7], [11, 12]⟩ "mw2" "dw2"
        { short_message :=
            some (List.replicate 141 0) }).result =
        .error .valueError ∧
      (submit_csm_udh ⟨true, [7], [11, 12]⟩ "mw2" "dw2"
        { short_message :=
            some (List.replicate 141 0) }).trace =
        [Ev.seqGenNext,
          Ev.stashInit "mw2"
            (csm_split_message (List.replicate 141 0)).length])) :=
  ⟨by decide,
    C2_udh_segments ⟨true, [7], [11, 12]⟩ "mw2" "dw2"
      (List.replicate 141 0)
      { short_message := some (List.replicate 141 0) }
      (by decide) (by decide) (by decide) (by decide)⟩

/-- C3 counterexample: a 141-byte two-chunk message submitted via SAR
while no protocol session exists fails with the not-connected error,
yet the sequence generator has been called and the multipart stash has
been written (both happen before the first guarded `submit_sm`),
contradicting the claim that no stash write and no sequence-generator
call occur regardless of chunk count. -/
theorem C3_not_connected_counterexample :
    (submit_csm_sar ⟨false, [7], [1, 2]⟩ "m3" "d3"
      { short_message := some (List.replicate 141 0) }).result =
      .error .notConnected ∧
    Ev.stashInit "m3" 2 ∈
      (submit_csm_sar ⟨false, [7], [1, 2]⟩ "m3" "d3"
        { short_message := some (List.replicate 141 0) }).trace ∧
    Ev.seqGenNext ∈
      (submit_csm_sar ⟨false, [7], [1, 2]⟩ "m3" "d3"
        { short_message := some (List.replicate 141 0) }).trace := by
  decide

/-- C3 (amended): every submission attempted while no protocol session
exists fails; `submit_sm`, `submit_sm_long`, the multipart paths on a
single-chunk message, and `submit_csm_sar` and `submit_csm_udh` for up
to 255 chunks fail with the not-connected error, while
`submit_csm_udh` on 256 or more chunks fails with the `ValueError`
from `chr` before ever reaching the guarded `submit_sm`. No stash
write and no sequence-generator call happens on the single-PDU paths
(empty trace), but a multi-chunk `submit_csm_sar` or `submit_csm_udh`
performs exactly one sequence-generator call and one stash write
before failing. -/
theorem C3_not_connected (w : World) (a b : String) (m : Bytes)
    (pp : PduParams) (hw : w.connected = false)
    (hsm : pp.short_message = some m) (hesm : pp.esm_class = none) :
    ((submit_sm w a b pp).result = .error .notConnected ∧
      (submit_sm w a b pp).trace = []) ∧
    ((submit_sm_long w a b m
        { pp with short_message := none }).result =
        .error .notConnected ∧
      (submit_sm_long w a b m { pp with short_message := none }).trace =
        []) ∧
    (submit_csm_sar w a b pp).result = .error .notConnected ∧
    ((csm_split_message m).length < 256 →
      (submit_csm_udh w a b pp).result = .error .notConnected) ∧
    (256 ≤ (csm_split_message m).length →
      (submit_csm_udh w a b pp).result = .error .valueError) ∧
    ((csm_split_message m).length = 1 →
      (submit_csm_sar w a b pp).trace = [] ∧
      (submit_csm_udh w a b pp).trace = []) ∧
    (1 < (csm_split_message m).length →
      (submit_csm_sar w a b pp).trace =
        [Ev.seqGenNext, Ev.stashInit a (csm_split_message m).length] ∧
      (submit_csm_udh w a b pp).trace =
        [Ev.seqGenNext, Ev.stashInit a (csm_split_message m).length]) := by
  have hsub := submit_sm_of_disconnected w a b pp hw
  have hwr : (drawRef w).2.connected = false := by
    rw [drawRef_connected]
    exact hw
  by_cases hf : fits_in_one_message m = true
  · have hsar := submit_csm_sar_single w a b pp m hsm hf
    have hudh := submit_csm_udh_single w a b pp m hesm hsm hf
    have hone : (csm_split_message m).length = 1 := by
      rw [csm_of_fits m hf]
      rfl
    refine ⟨⟨by rw [hsub], by rw [hsub]⟩, ⟨?_, ?_⟩, ?_, ?_, ?_, ?_, ?_⟩
    · simp only [submit_sm_long, Option.isSome_none, Bool.false_eq_true,
        if_false]
      rw [submit_sm_of_disconnected _ _ _ _ hw]
    · simp only [submit_sm_long, Option.isSome_none, Bool.false_eq_true,
        if_false]
      rw [submit_sm_of_disconnected _ _ _ _ hw]
    · rw [hsar, hsub]
    · intro _
      rw [hudh, hsub]
    · intro hge
      rw [hone] at hge
      omega
    · intro _
      rw [hsar, hudh, hsub]
      exact ⟨rfl, rfl⟩
    · intro hlt
      rw [hone] at hlt
      omega
  · have hf2 : fits_in_one_message m = false := Bool.not_eq_true _ ▸ hf
    obtain ⟨c0, t, hcs⟩ :=
      List.exists_cons_of_ne_nil (csm_ne_nil m)
    have henum : (csm_split_message m).enum = (0, c0) :: t.enumFrom 1 := by
      rw [hcs]
      simp [List.enum_cons]
    have hsarloop :
        sarLoop a b
            { pp with short_message := none, optional_parameters := none }
            (drawRef w).1 (csm_split_message m).length (drawRef w).2
            (pp.optional_parameters.getD [])
            (csm_split_message m).enum =
          { result := .error .notConnected, trace := [],
            world := (drawRef w).2 } := by
      rw [henum]
      exact sarLoop_cons_disconnected _ _ _ _ _ _ _ _ _ _ hwr
    have hsar := submit_csm_sar_multi w a b pp m hsm hf2
    have hudh := submit_csm_udh_multi w a b pp m hesm hsm hf2
    have hone : ¬ (csm_split_message m).length = 1 := by
      have := one_lt_csm_length m hf2
      omega
    by_cases hN : (csm_split_message m).length < 256
    · have hudhloop :
          udhLoop a b (drawRef w).1 (csm_split_message m).length
              (drawRef w).2 { pp with short_message := none }
              (csm_split_message m).enum =
            { result := .error .notConnected, trace := [],
              world := (drawRef w).2 } := by
        rw [henum]
        exact udhLoop_cons_disconnected a b (drawRef w).1
          (csm_split_message m).length 0 c0 _ (t.enumFrom 1)
          (drawRef w).2 { pp with short_message := none }
          (udhHeader_some (drawRef w).1 (csm_split_message m).length 1
            hN (by omega)) hwr
      refine ⟨⟨by rw [hsub], by rw [hsub]⟩, ⟨?_, ?_⟩, ?_, ?_, ?_, ?_, ?_⟩
      · simp only [submit_sm_long, Option.isSome_none, Bool.false_eq_true,
          if_false]
        rw [submit_sm_of_disconnected _ _ _ _ hw]
      · simp only [submit_sm_long, Option.isSome_none, Bool.false_eq_true,
          if_false]
        rw [submit_sm_of_disconnected _ _ _ _ hw]
      · rw [hsar, hsarloop]
      · intro _
        rw [hudh, hudhloop]
      · intro hge
        omega
      · intro h1
        exact absurd h1 hone
      · intro _
        rw [hsar, hudh, hsarloop, hudhloop]
        exact ⟨rfl, rfl⟩
    · have hge : 256 ≤ (csm_split_message m).length := by omega
      have hudhloop :
          udhLoop a b (drawRef w).1 (csm_split_message m).length
              (drawRef w).2 { pp with short_message := none }
              (csm_split_message m).enum =
            { result := .error .valueError, trace := [],
              world := (drawRef w).2 } := by
        rw [henum]
        exact udhLoop_cons_valueError a b (drawRef w).1
          (csm_split_message m).length 0 c0 (t.enumFrom 1)
          (drawRef w).2 { pp with short_message := none }
          (udhHeader_none_of_total (drawRef w).1
            (csm_split_message m).length 1 hge)
      refine ⟨⟨by rw [hsub], by rw [hsub]⟩, ⟨?_, ?_⟩, ?_, ?_, ?_, ?_, ?_⟩
      · simp only [submit_sm_long, Option.isSome_none, Bool.false_eq_true,
          if_false]
        rw [submit_sm_of_disconnected _ _ _ _ hw]
      · simp only [submit_sm_long, Option.isSome_none, Bool.false_eq_true,
          if_false]
        rw [submit_sm_of_disconnected _ _ _ _ hw]
      · rw [hsar, hsarloop]
      · intro hlt
        omega
      · intro _
        rw [hudh, hudhloop]
      · intro h1
        exact absurd h1 hone
      · intro _
        rw [hsar, hudh, hsarloop, hudhloop]
        exact ⟨rfl, rfl⟩

/-- C3 amended witness: a 141-byte message (two chunks) at a
disconnected world. -/
theorem C3_not_connected_witness :
    (1 < (csm_split_message (List.replicate 141 0)).length) ∧
    (((submit_sm ⟨false, [7], [1, 2]⟩ "mw3" "dw3"
        { short_message := some (List.replicate 141 0) }).result =
        .error .notConnected ∧
      (submit_sm ⟨false, [7], [1, 2]⟩ "mw3" "dw3"
        { short_message := some (List.replicate 141 0) }).trace = []) ∧
    ((submit_sm_long ⟨false, [7], [1, 2]⟩ "mw3" "dw3"
        (List.replicate 141 0)
        { ({ short_message :=
              some (List.replicate 141 0) } : PduParams) with
          short_message := none }).result = .error .notConnected ∧
      (submit_sm_long ⟨false, [7], [1, 2]⟩ "mw3" "dw3"
        (List.replicate 141 0)
        { ({ short_message :=
              some (List.replicate 141 0) } : PduParams) with
          short_message := none }).trace = []) ∧
    (submit_csm_sar ⟨false, [7], [1, 2]⟩ "mw3" "dw3"
      { short_message := some (List.replicate 141 0) }).result =
      .error .notConnected ∧
    ((csm_split_message (List.replicate 141 0)).length < 256 →
      (submit_csm_udh ⟨false, [7], [1, 2]⟩ "mw3" "dw3"
        { short_message := some (List.replicate 141 0) }).result =
        .error .notConnected) ∧
    (256 ≤ (csm_split_message (List.replicate 141 0)).length →
      (submit_csm_udh ⟨false, [7], [1, 2]⟩ "mw3" "dw3"
        { short_message := some (List.replicate 141 0) }).result =
        .error .valueError) ∧
    ((csm_split_message (List.replicate 141 0)).length = 1 →
      (submit_csm_sar ⟨false, [7], [1, 2]⟩ "mw3" "dw3"
        { short_message := some (List.replicate 141 0) }).trace = [] ∧
      (submit_csm_udh ⟨false, [7], [1, 2]⟩ "mw3" "dw3"
        { short_message := some (List.replicate 141 0) }).trace = []) ∧
    (1 < (csm_split_message (List.replicate 141 0)).length →
      (submit_csm_sar ⟨false, [7], [1, 2]⟩ "mw3" "dw3"
        { short_message := some (List.replicate 141 0) }).trace =
        [Ev.seqGenNext,
          Ev.stashInit "mw3"
            (csm_split_message (List.replicate 141 0)).length] ∧
      (submit_csm_udh ⟨false, [7], [1, 2]⟩ "mw3" "dw3"
        { short_message := some (List.replicate 141 0) }).trace =
        [Ev.seqGenNext,
          Ev.stashInit "mw3"
            (csm_split_message (List.replicate 141 0)).length])) :=
  ⟨by decide,
    C3_not_connected ⟨false, [7], [1, 2]⟩ "mw3" "dw3"
      (List.replicate 141 0)
      { short_message := some (List.replicate 141 0) }
      (by decide) (by decide) (by decide)⟩

/-- C8: in both multipart strategies, when the message splits into more
than one chunk the stash entry (message id → chunk count) is recorded
before any segment is submitted (the trace is the sequence-generator
draw, then the stash write, then only PDU submissions); when the
message splits into exactly one chunk, the chunk is submitted directly
with no stash entry and no reference number drawn, returning a single
sequence number. -/
theorem C8_stash_before_segments (w : World) (a b : String) (m : Bytes)
    (pp : PduParams) (hw : w.connected = true)
    (hsm : pp.short_message = some m) (hesm : pp.esm_class = none) :
    (1 < (csm_split_message m).length →
      (∃ lt, (submit_csm_sar w a b pp).trace =
          Ev.seqGenNext ::
            Ev.stashInit a (csm_split_message m).length :: lt ∧
          ∀ e ∈ lt, isSubmitEv e = true) ∧
      (∃ lt, (submit_csm_udh w a b pp).trace =
          Ev.seqGenNext ::
            Ev.stashInit a (csm_split_message m).length :: lt ∧
          ∀ e ∈ lt, isSubmitEv e = true)) ∧
    ((csm_split_message m).length = 1 →
      (submit_csm_sar w a b pp).trace = [Ev.submitPdu a b pp] ∧
      (submit_csm_sar w a b pp).result = .ok [(drawSeq w).1] ∧
      (submit_csm_sar w a b pp).world.refNums = w.refNums ∧
      (submit_csm_udh w a b pp).trace = [Ev.submitPdu a b pp] ∧
      (submit_csm_udh w a b pp).result = .ok [(drawSeq w).1] ∧
      (submit_csm_udh w a b pp).world.refNums = w.refNums) := by
  by_cases hf : fits_in_one_message m = true
  · have hone : (csm_split_message m).length = 1 := by
      rw [csm_of_fits m hf]
      rfl
    have hsar := submit_csm_sar_single w a b pp m hsm hf
    have hudh := submit_csm_udh_single w a b pp m hesm hsm hf
    have hsub := submit_sm_of_connected w a b pp hw
    constructor
    · intro hlt
      rw [hone] at hlt
      omega
    · intro _
      rw [hsar, hudh, hsub]
      exact ⟨rfl, rfl, drawSeq_refNums w, rfl, rfl, drawSeq_refNums w⟩
  · have hf2 : fits_in_one_message m = false := Bool.not_eq_true _ ▸ hf
    have hwr : (drawRef w).2.connected = true := by
      rw [drawRef_connected]
      exact hw
    have hone : ¬ (csm_split_message m).length = 1 := by
      have := one_lt_csm_length m hf2
      omega
    constructor
    · intro _
      constructor
      · rw [submit_csm_sar_multi w a b pp m hsm hf2]
        obtain ⟨_, _, _, _, hallsub, _⟩ := sarLoop_spec a b
          { pp with short_message := none, optional_parameters := none }
          (drawRef w).1 (csm_split_message m).length
          (csm_split_message m).enum (drawRef w).2
          (pp.optional_parameters.getD []) hwr
        exact ⟨_, rfl, hallsub⟩
      · rw [submit_csm_udh_multi w a b pp m hesm hsm hf2]
        refine ⟨_, rfl, ?_⟩
        intro e he
        exact udhLoop_trace_submits a b (drawRef w).1
          (csm_split_message m).length (csm_split_message m).enum
          (drawRef w).2 { pp with short_message := none } e he
    · intro h1
      exact absurd h1 hone

/-- C8 witness: the spec's end-to-end scenario — the 8-byte message
"elephant" submitted via SAR (and UDH) is a single chunk, no stash
entry is created, no reference number drawn, one sequence number
returned. -/
theorem C8_stash_before_segments_witness :
    ((csm_split_message [101, 108, 101, 112, 104, 97, 110, 116]).length =
      1) ∧
    ((1 < (csm_split_message
          [101, 108, 101, 112, 104, 97, 110, 116]).length →
      (∃ lt, (submit_csm_sar ⟨true, [9], [41]⟩ "mw8" "dw8"
          { short_message :=
              some [101, 108, 101, 112, 104, 97, 110, 116] }).trace =
          Ev.seqGenNext ::
            Ev.stashInit "mw8"
              (csm_split_message
                [101, 108, 101, 112, 104, 97, 110, 116]).length :: lt ∧
          ∀ e ∈ lt, isSubmitEv e = true) ∧
      (∃ lt, (submit_csm_udh ⟨true, [9], [41]⟩ "mw8" "dw8"
          { short_message :=
              some [101, 108, 101, 112, 104, 97, 110, 116] }).trace =
          Ev.seqGenNext ::
            Ev.stashInit "mw8"
              (csm_split_message
                [101, 108, 101, 112, 104, 97, 110, 116]).length :: lt ∧
          ∀ e ∈ lt, isSubmitEv e = true)) ∧
    ((csm_split_message [101, 108, 101, 112, 104, 97, 110, 116]).length =
        1 →
      (submit_csm_sar ⟨true, [9], [41]⟩ "mw8" "dw8"
        { short_message :=
            some [101, 108, 101, 112, 104, 97, 110, 116] }).trace =
        [Ev.submitPdu "mw8" "dw8"
          { short_message :=
              some [101, 108, 101, 112, 104, 97, 110, 116] }] ∧
      (submit_csm_sar ⟨true, [9], [41]⟩ "mw8" "dw8"
        { short_message :=
            some [101, 108, 101, 112, 104, 97, 110, 116] }).result =
        .ok [(drawSeq ⟨true, [9], [41]⟩).1] ∧
      (submit_csm_sar ⟨true, [9], [41]⟩ "mw8" "dw8"
        { short_message :=
            some [101, 108, 101, 112, 104, 97, 110,
              116] }).world.refNums = [9] ∧
      (submit_csm_udh ⟨true, [9], [41]⟩ "mw8" "dw8"
        { short_message :=
            some [101, 108, 101, 112, 104, 97, 110, 116] }).trace =
        [Ev.submitPdu "mw8" "dw8"
          { short_message :=
              some [101, 108, 101, 112, 104, 97, 110, 116] }] ∧
      (submit_csm_udh ⟨true, [9], [41]⟩ "mw8" "dw8"
        { short_message :=
            some [101, 108, 101, 112, 104, 97, 110, 116] }).result =
        .ok [(drawSeq ⟨true, [9], [41]⟩).1] ∧
      (submit_csm_udh ⟨true, [9], [41]⟩ "mw8" "dw8"
        { short_message :=
            some [101, 108, 101, 112, 104, 97, 110,
              116] }).world.refNums = [9])) :=
  ⟨by decide,
    C8_stash_before_segments ⟨true, [9], [41]⟩ "mw8" "dw8"
      [101, 108, 101, 112, 104, 97, 110, 116]
      { short_message := some [101, 108, 101, 112, 104, 97, 110, 116] }
      (by decide) (by decide) (by decide)⟩
